import Mathlib

/-!
Shallow embedding of the streaming relay core of the open-chat-widget
backend (backend/src/index.ts) and of the Convex conversation store
(convex/conversations.ts), with theorems checking the specification
claims against it.

JS strings are modelled as lists of characters so that every string
operation of the source (slice, trim, split, indexOf-based scanning)
is a structurally recursive Lean function the kernel can evaluate.
-/

namespace OpenChatWidget

/-! ## JS string primitives -/

/-- JS String.prototype.trim, on the character-list model of strings:
drop whitespace from both ends. -/
def trimL (s : List Char) : List Char :=
  ((s.dropWhile Char.isWhitespace).reverse.dropWhile Char.isWhitespace).reverse

/-- First occurrence of a separator: the text before the first match
and the text after it, or none when the separator does not occur.
Models String.prototype.indexOf plus the two slices around the hit. -/
def splitFirst (sep : List Char) : List Char → Option (List Char × List Char)
  | [] => none
  | c :: rest =>
    if sep.isPrefixOf (c :: rest) then some ([], (c :: rest).drop sep.length)
    else
      match splitFirst sep rest with
      | some (pre, post) => some (c :: pre, post)
      | none => none

/-- Repeated leftmost splitting with explicit fuel, so that the
definition is structurally recursive and kernel-evaluable. -/
def splitOnFuel (sep : List Char) : Nat → List Char → List (List Char)
  | 0, s => [s]
  | fuel + 1, s =>
    match splitFirst sep s with
    | none => [s]
    | some (pre, post) => pre :: splitOnFuel sep fuel post

/-- JS String.prototype.split on a non-empty separator: every part
between consecutive separator occurrences, trailing empty part kept.
The length of the string is always enough fuel, because every split
consumes at least one character of a non-empty separator. -/
def splitOnL (sep s : List Char) : List (List Char) :=
  splitOnFuel sep s.length s

/-! ## Upstream stream parsing (generateAssistantMessage) -/

/-- The fixed fallback assistant message used when accumulation is
empty or whitespace-only. -/
def fallbackMessage : String := "I could not generate a response right now."

/--
One line of an upstream event, as handled inside processEvent of
generateAssistantMessage: trim the line, require the data marker,
strip it, trim, skip the DONE sentinel, then decode the chunk. The
JSON decoding of a chunk and the extraction of the field
choices[0].delta.content is modelled by the parameter parseChunk:
none stands for a decode failure or an absent content field (both are
skipped, never fatal), and an empty decoded token is skipped as well
because the source tests the token for JS truthiness.
-/
def lineToken (parseChunk : List Char → Option (List Char)) (rawLine : List Char) :
    Option (List Char) :=
  let line := trimL rawLine
  if "data:".data.isPrefixOf line then
    let data := trimL (line.drop 5)
    if data = "[DONE]".data then none
    else
      match parseChunk data with
      | none => none
      | some token => if token = [] then none else some token
  else none

/-- processEvent: split one raw event into its lines and extract the
tokens of its payload lines, in order. -/
def processEvent (parseChunk : List Char → Option (List Char)) (rawEvent : List Char) :
    List (List Char) :=
  (splitOnL ['\n'] rawEvent).filterMap (lineToken parseChunk)

/-- The inner while loop of the read loop: repeatedly search the
buffer for the first blank-line boundary, slice each complete event
out and advance past the boundary. Iterated leftmost search for a
separator is exactly leftmost splitting: every part except the last
is a complete event, and the last part is the remaining buffer. -/
def drainBuffer (buffer : List Char) : List (List Char) × List Char :=
  let parts := splitOnL ['\n', '\n'] buffer
  (parts.dropLast, (parts.getLast?).getD [])

/-- One iteration of the outer read loop: append the decoded chunk to
the buffer, then process every complete event. The state is the
remaining buffer together with the tokens extracted so far. -/
def feedChunk (parseChunk : List Char → Option (List Char))
    (st : List Char × List (List Char)) (chunk : List Char) :
    List Char × List (List Char) :=
  let buffer := st.1 ++ chunk
  let (events, rest) := drainBuffer buffer
  (rest, st.2 ++ (events.map (processEvent parseChunk)).flatten)

/-- The full read loop of generateAssistantMessage on a byte stream,
modelled as the list of decoded text chunks arriving from upstream:
feed every chunk, and on end-of-stream run line extraction once more
on a non-blank trailing partial event. The result is the list of
extracted token fragments in extraction order; it is both the
sequence handed to the onToken sink and, concatenated, the value of
the assistantMessage accumulator. -/
def extractTokens (parseChunk : List Char → Option (List Char))
    (chunks : List (List Char)) : List (List Char) :=
  let (buffer, tokens) := chunks.foldl (feedChunk parseChunk) ([], [])
  if trimL buffer = [] then tokens else tokens ++ processEvent parseChunk buffer

/-- The value returned by generateAssistantMessage: the trimmed
accumulator if it is JS-truthy, otherwise the fixed fallback string. -/
def generateAssistantMessage (parseChunk : List Char → Option (List Char))
    (chunks : List (List Char)) : List Char :=
  let assistantMessage := (extractTokens parseChunk chunks).flatten
  let trimmed := trimL assistantMessage
  if trimmed = [] then fallbackMessage.data else trimmed

/-! ## Rate limiter (isWithinRateLimit) -/

structure RateLimitBucket where
  count : Nat
  resetAt : Nat
deriving DecidableEq, Repr

/-- The in-process rateLimitBuckets map, keyed by client address. -/
abbrev Buckets := List (String × RateLimitBucket)

def bucketsGet (buckets : Buckets) (key : String) : Option RateLimitBucket :=
  match buckets.find? (fun e => e.1 = key) with
  | some e => some e.2
  | none => none

def bucketsSet (buckets : Buckets) (key : String) (b : RateLimitBucket) : Buckets :=
  match buckets with
  | [] => [(key, b)]
  | e :: rest => if e.1 = key then (key, b) :: rest else e :: bucketsSet rest key b

/-- isWithinRateLimit: fixed-window admission for one client key at one
instant, returning the decision together with the updated bucket map.
A missing or expired bucket starts a fresh window with count one and
admits; otherwise the counter is incremented (also on rejection) and
the call is admitted exactly when the new count stays within the
configured maximum. -/
def isWithinRateLimit (windowMs maxRequests : Nat) (buckets : Buckets)
    (key : String) (now : Nat) : Bool × Buckets :=
  match bucketsGet buckets key with
  | none => (true, bucketsSet buckets key ⟨1, now + windowMs⟩)
  | some existing =>
    if now > existing.resetAt then
      (true, bucketsSet buckets key ⟨1, now + windowMs⟩)
    else
      let updated : RateLimitBucket := ⟨existing.count + 1, existing.resetAt⟩
      (decide (updated.count ≤ maxRequests), bucketsSet buckets key updated)

/-- A sequence of admit calls for one key at the given instants. -/
def admitSeq (windowMs maxRequests : Nat) (key : String) (buckets : Buckets) :
    List Nat → List Bool × Buckets
  | [] => ([], buckets)
  | t :: ts =>
    let (ok, buckets1) := isWithinRateLimit windowMs maxRequests buckets key t
    let (rest, buckets2) := admitSeq windowMs maxRequests key buckets1 ts
    (ok :: rest, buckets2)

/-! ## Credential gate (secureEquals) -/

/-- UTF-8 encoding of one character, as performed by Buffer.from on a
JS string. -/
def utf8EncodeCharL (c : Char) : List UInt8 :=
  let v := c.toNat
  if v < 0x80 then
    [UInt8.ofNat v]
  else if v < 0x800 then
    [UInt8.ofNat (0xC0 ||| (v >>> 6)), UInt8.ofNat (0x80 ||| (v &&& 0x3F))]
  else if v < 0x10000 then
    [UInt8.ofNat (0xE0 ||| (v >>> 12)), UInt8.ofNat (0x80 ||| ((v >>> 6) &&& 0x3F)),
      UInt8.ofNat (0x80 ||| (v &&& 0x3F))]
  else
    [UInt8.ofNat (0xF0 ||| (v >>> 18)), UInt8.ofNat (0x80 ||| ((v >>> 12) &&& 0x3F)),
      UInt8.ofNat (0x80 ||| ((v >>> 6) &&& 0x3F)), UInt8.ofNat (0x80 ||| (v &&& 0x3F))]

/-- Buffer.from(s): the UTF-8 bytes of a string. -/
def utf8Bytes (s : String) : List UInt8 :=
  (s.data.map utf8EncodeCharL).flatten

/-- The constant-time byte-comparison primitive
crypto.timingSafeEqual, modelled by its result on two equal-length
byte buffers. -/
def timingSafeEqual (a b : List UInt8) : Bool := a == b

/-- secureEquals: compare the UTF-8 byte buffers of two strings,
returning false immediately when the byte lengths differ and otherwise
delegating to the constant-time primitive. -/
def secureEquals (left right : String) : Bool :=
  let leftBuffer := utf8Bytes left
  let rightBuffer := utf8Bytes right
  if leftBuffer.length ≠ rightBuffer.length then false
  else timingSafeEqual leftBuffer rightBuffer

/-- secureEquals instrumented with a flag recording whether the
constant-time comparison primitive was invoked on this call. -/
def secureEqualsTraced (left right : String) : Bool × Bool :=
  let leftBuffer := utf8Bytes left
  let rightBuffer := utf8Bytes right
  if leftBuffer.length ≠ rightBuffer.length then (false, false)
  else (timingSafeEqual leftBuffer rightBuffer, true)

/-! ## Admin credential gate (requireAdminApiKey) -/

inductive AdminAuthOutcome
  | notConfigured
  | unauthorized
  | authorized
deriving DecidableEq, Repr

/-- The HTTP status the gate responds with: 503 with a capability
message when the admin key is unset, 401 Unauthorized on a failed
comparison, and no terminal response when the gate passes. -/
def adminStatusCode : AdminAuthOutcome → Option Nat
  | .notConfigured => some 503
  | .unauthorized => some 401
  | .authorized => none

/-- JS truthiness test of an optional string: undefined and the empty
string are falsy. -/
def jsFalsyOptString : Option String → Bool
  | none => true
  | some s => s = ""

/-- requireAdminApiKey: when env.ADMIN_API_KEY is falsy, answer the
distinct 503 capability-not-configured terminal; otherwise compare the
presented header (defaulted to the empty string) against the
configured secret. The Bool component records whether any credential
comparison was performed. -/
def requireAdminApiKey (adminApiKeyEnv : Option String) (headerApiKey : Option String) :
    AdminAuthOutcome × Bool :=
  if jsFalsyOptString adminApiKeyEnv then (.notConfigured, false)
  else
    let apiKey := headerApiKey.getD ""
    if secureEquals (adminApiKeyEnv.getD "") apiKey then (.authorized, true)
    else (.unauthorized, true)

/-! ## Conversation store (convex/conversations.ts) -/

inductive Role
  | user
  | assistant
deriving DecidableEq, Repr

structure MessageRec where
  id : Nat
  conversationId : Nat
  role : Role
  content : String
  createdAt : Nat
deriving DecidableEq, Repr

structure ConversationRec where
  id : Nat
  sessionId : String
  createdAt : Nat
  updatedAt : Nat
  lastMessage : String
deriving DecidableEq, Repr

/-- The two Convex tables, with insertion order preserved and a
counter supplying fresh document ids. -/
structure Store where
  conversations : List ConversationRec
  messages : List MessageRec
  nextId : Nat
deriving DecidableEq, Repr

/-- JS String.prototype.slice(0, n), used for the lastMessage
preview. -/
def jsSlice (s : String) (n : Nat) : String :=
  String.mk (s.data.take n)

/-- getOrCreateConversation: look the session identifier up through
the by_session_id index with .unique(), which throws when several
documents match; return the existing document id or insert a fresh
conversation stamped with the supplied instant. -/
def getOrCreateConversation (store : Store) (sessionId : String) (now : Nat) :
    Except Unit (Nat × Store) :=
  match store.conversations.filter (fun c => c.sessionId = sessionId) with
  | [] =>
    let c : ConversationRec := ⟨store.nextId, sessionId, now, now, ""⟩
    .ok (store.nextId,
      { store with conversations := store.conversations ++ [c], nextId := store.nextId + 1 })
  | [existing] => .ok (existing.id, store)
  | _ => .error ()

/-- ctx.db.patch of one conversation inside addMessage. -/
def patchConversation (c : ConversationRec) (updatedAt : Nat) (lastMessage : String) :
    ConversationRec :=
  { c with updatedAt := updatedAt, lastMessage := lastMessage }

/-- addMessage: insert one message document, then patch the owning
conversation with the new update instant and a 500-character preview
of the content. -/
def addMessage (store : Store) (conversationId : Nat) (role : Role) (content : String)
    (createdAt : Nat) : Nat × Store :=
  let m : MessageRec := ⟨store.nextId, conversationId, role, content, createdAt⟩
  let conversations := store.conversations.map fun c =>
    if c.id = conversationId then patchConversation c createdAt (jsSlice content 500) else c
  (store.nextId,
    { conversations := conversations, messages := store.messages ++ [m],
      nextId := store.nextId + 1 })

structure HistoryMessage where
  role : Role
  content : String
deriving DecidableEq, Repr

/-- Stable insertion by creation instant, placing a document before
the first strictly later one; ties keep insertion order, matching the
by_conversation_id_created_at index. -/
def insertByCreatedAt (m : MessageRec) : List MessageRec → List MessageRec
  | [] => [m]
  | x :: xs => if m.createdAt ≤ x.createdAt then m :: x :: xs else x :: insertByCreatedAt m xs

def sortByCreatedAt (l : List MessageRec) : List MessageRec :=
  l.foldr insertByCreatedAt []

/-- getHistoryForModel: the messages of one conversation in index
order, reduced to role and content; when a positive limit is given
and exceeded, keep only the most recent limit entries, oldest
first. -/
def getHistoryForModel (store : Store) (conversationId : Nat) (limit : Option Nat) :
    List HistoryMessage :=
  let messages := sortByCreatedAt (store.messages.filter (fun m => m.conversationId = conversationId))
  let normalized := messages.map (fun m => HistoryMessage.mk m.role m.content)
  match limit with
  | none => normalized
  | some l =>
    if l = 0 then normalized
    else if normalized.length ≤ l then normalized
    else normalized.drop (normalized.length - l)

/-! ## Relay orchestrator (backend/src/index.ts) -/

inductive ChatStreamPayload
  | start (conversationId : String)
  | token (token : String)
  | done (message : String) (conversationId : String)
  | error (error : String)
deriving DecidableEq, Repr

def isStartEv : ChatStreamPayload → Bool
  | .start _ => true
  | _ => false

def isTokenEv : ChatStreamPayload → Bool
  | .token _ => true
  | _ => false

def isTerminalEv : ChatStreamPayload → Bool
  | .done _ _ => true
  | .error _ => true
  | _ => false

/-- The outward response object: status, whether any bytes were
written, whether the response was ended, the NDJSON lines written so
far, and a one-shot JSON body for the non-streaming terminals. -/
structure ResState where
  statusCode : Option Nat
  headersSent : Bool
  writableEnded : Bool
  stream : List ChatStreamPayload
  jsonBody : Option String
deriving DecidableEq, Repr

def ResState.init : ResState := ⟨none, false, false, [], none⟩

/-- writeStreamLine: serialize one event object followed by one
newline onto the open response; the first write sends the headers. -/
def writeStreamLine (res : ResState) (payload : ChatStreamPayload) : ResState :=
  { res with stream := res.stream ++ [payload], headersSent := true }

/-- res.status(code).json(body): a one-shot terminal response. -/
def sendJson (res : ResState) (status : Nat) (body : String) : ResState :=
  { res with
    statusCode := some status
    headersSent := true
    writableEnded := true
    jsonBody := some body }

/-- res.end(). -/
def endResponse (res : ResState) : ResState :=
  { res with writableEnded := true }

/-- The outcome of one generateAssistantMessage call as observed by
the orchestrator: the tokens handed to the onToken sink in order,
then either the returned final message or a thrown error (an upstream
non-2xx or unreadable body, a read failure, or any internal error). -/
structure GenOutcome where
  emitted : List String
  result : Option String
deriving DecidableEq, Repr

structure ChatRequest where
  sessionId : String
  message : String
deriving DecidableEq, Repr

/-- prepareConversationData: resolve the conversation, append the
user turn, and fetch the recent history window. -/
structure PrepResult where
  conversationId : Nat
  history : List HistoryMessage
  store : Store
deriving DecidableEq, Repr

def prepareConversationData (maxHistoryMessages : Nat) (store : Store)
    (sessionId message : String) (now : Nat) : Except Unit PrepResult :=
  match getOrCreateConversation store sessionId now with
  | .error e => .error e
  | .ok (conversationId, s1) =>
    let (_, s2) := addMessage s1 conversationId .user message now
    let history := getHistoryForModel s2 conversationId (some maxHistoryMessages)
    .ok ⟨conversationId, history, s2⟩

/-- persistAssistantMessage: append the finalized assistant turn. -/
def persistAssistantMessage (store : Store) (conversationId : Nat) (message : String)
    (at_ : Nat) : Store :=
  (addMessage store conversationId .assistant message at_).2

/-- The catch block of handleStreamingChat: a JSON 500 when nothing
was sent yet, one error event and an end when streaming already
began, and nothing once the response is over. -/
def catchStreamingError (res : ResState) : ResState :=
  if ¬res.headersSent then sendJson res 500 "Internal server error"
  else if ¬res.writableEnded then endResponse (writeStreamLine res (.error "Internal server error"))
  else res

/-- handleStreamingChat: rate limit, client credential and request
validation gates, then conversation preparation; on success the
streaming headers are set, a start event carrying the conversation
identifier is written, every token of the generation is forwarded as
a token event while the response is open, the assistant turn is
persisted, and a done event closes the response. A failure thrown
after streaming began is surfaced as a single error event before
closing. The generation outcome and the wall clock are parameters of
the embedding. -/
def handleStreamingChat (maxHistoryMessages : Nat) (rateLimitOk apiKeyOk : Bool)
    (parsed : Option ChatRequest) (store : Store) (now persistAt : Nat)
    (gen : GenOutcome) (res : ResState) : ResState × Store :=
  if ¬rateLimitOk then (sendJson res 429 "Too many requests", store)
  else if ¬apiKeyOk then (sendJson res 401 "Unauthorized", store)
  else
    match parsed with
    | none => (sendJson res 400 "Invalid request payload", store)
    | some req =>
      match prepareConversationData maxHistoryMessages store req.sessionId req.message now with
      | .error _ => (catchStreamingError res, store)
      | .ok prep =>
        let res0 : ResState := { res with statusCode := some 200 }
        let res1 := writeStreamLine res0 (.start (toString prep.conversationId))
        let res2 := gen.emitted.foldl
          (fun r t => if ¬r.writableEnded then writeStreamLine r (.token t) else r) res1
        match gen.result with
        | none => (catchStreamingError res2, prep.store)
        | some finalMessage =>
          let store2 := persistAssistantMessage prep.store prep.conversationId finalMessage persistAt
          let res3 :=
            if ¬res2.writableEnded then
              endResponse (writeStreamLine res2 (.done finalMessage (toString prep.conversationId)))
            else res2
          (res3, store2)


/-! ## Helper lemmas -/

/-- Writing the token events of an open response appends exactly the
token events, in order, and leaves the response open. -/
theorem foldl_token_writes (toks : List String) (r : ResState)
    (hE : r.writableEnded = false) (hH : r.headersSent = true) :
    toks.foldl (fun r t => if ¬r.writableEnded then writeStreamLine r (.token t) else r) r =
      { r with stream := r.stream ++ toks.map ChatStreamPayload.token } := by
  induction toks generalizing r with
  | nil => simp
  | cons t ts ih =>
    rw [List.foldl_cons]
    have h1 : (if ¬r.writableEnded = true then writeStreamLine r (ChatStreamPayload.token t) else r) =
        writeStreamLine r (ChatStreamPayload.token t) := by simp [hE]
    rw [h1]
    rw [ih (writeStreamLine r (ChatStreamPayload.token t)) (by simp [writeStreamLine, hE])
      (by simp [writeStreamLine])]
    simp [writeStreamLine, hH, hE]

/-- Reduction of one streaming run whose generation returns a final
message: start, the token events, persistence, then a single done
event and the end of the response. -/
theorem handleStreamingChat_done (maxHistoryMessages : Nat) (store : Store) (now persistAt : Nat)
    (gen : GenOutcome) (req : ChatRequest) (prep : PrepResult) (m : String)
    (hprep : prepareConversationData maxHistoryMessages store req.sessionId req.message now = .ok prep)
    (hres : gen.result = some m) :
    handleStreamingChat maxHistoryMessages true true (some req) store now persistAt gen ResState.init =
      (ResState.mk (some 200) true true
        (ChatStreamPayload.start (toString prep.conversationId) ::
          gen.emitted.map ChatStreamPayload.token ++ [.done m (toString prep.conversationId)]) none,
        persistAssistantMessage prep.store prep.conversationId m persistAt) := by
  simp only [handleStreamingChat, hprep, hres]
  rw [show writeStreamLine { ResState.init with statusCode := some 200 }
      (ChatStreamPayload.start (toString prep.conversationId)) =
      ResState.mk (some 200) true false [ChatStreamPayload.start (toString prep.conversationId)] none
      from rfl]
  rw [foldl_token_writes gen.emitted
    (ResState.mk (some 200) true false [ChatStreamPayload.start (toString prep.conversationId)] none)
    rfl rfl]
  simp [writeStreamLine, endResponse]

/-- Reduction of one streaming run whose generation throws after the
token events were written: start, the token events, then a single
error event and the end of the response, with no persistence. -/
theorem handleStreamingChat_fail (maxHistoryMessages : Nat) (store : Store) (now persistAt : Nat)
    (gen : GenOutcome) (req : ChatRequest) (prep : PrepResult)
    (hprep : prepareConversationData maxHistoryMessages store req.sessionId req.message now = .ok prep)
    (hres : gen.result = none) :
    handleStreamingChat maxHistoryMessages true true (some req) store now persistAt gen ResState.init =
      (ResState.mk (some 200) true true
        (ChatStreamPayload.start (toString prep.conversationId) ::
          gen.emitted.map ChatStreamPayload.token ++ [.error "Internal server error"]) none,
        prep.store) := by
  simp only [handleStreamingChat, hprep, hres]
  rw [show writeStreamLine { ResState.init with statusCode := some 200 }
      (ChatStreamPayload.start (toString prep.conversationId)) =
      ResState.mk (some 200) true false [ChatStreamPayload.start (toString prep.conversationId)] none
      from rfl]
  rw [foldl_token_writes gen.emitted
    (ResState.mk (some 200) true false [ChatStreamPayload.start (toString prep.conversationId)] none)
    rfl rfl]
  simp [catchStreamingError, writeStreamLine, endResponse]

/-- The first blank-line boundary after a boundary-free piece that
does not end in a newline sits exactly at the junction. -/
theorem splitFirst_boundary (pre post : List Char)
    (h1 : splitFirst ['\n', '\n'] pre = none) (h2 : pre.getLast? ≠ some '\n') :
    splitFirst ['\n', '\n'] (pre ++ '\n' :: '\n' :: post) = some (pre, post) := by
  induction pre with
  | nil => simp [splitFirst, List.isPrefixOf]
  | cons c pre' ih =>
    rw [splitFirst] at h1
    by_cases hpfx : ['\n', '\n'].isPrefixOf (c :: pre')
    · rw [if_pos hpfx] at h1
      exact absurd h1 (by simp)
    · rw [if_neg hpfx] at h1
      have hrec : splitFirst ['\n', '\n'] pre' = none := by
        cases hr : splitFirst ['\n', '\n'] pre' with
        | none => rfl
        | some p => rw [hr] at h1; cases p; simp at h1
      rw [List.cons_append, splitFirst]
      cases pre' with
      | nil =>
        have hc : ¬('\n' = c) := by
          intro hcn
          exact h2 (by simp [← hcn])
        rw [if_neg (by simp [List.isPrefixOf, hc])]
        rw [show splitFirst ['\n', '\n'] (([] : List Char) ++ '\n' :: '\n' :: post) = some ([], post) from by
          simp [splitFirst, List.isPrefixOf]]
      | cons c2 pre'' =>
        have hpfx2 : ¬ (['\n', '\n'].isPrefixOf (c :: (c2 :: pre'' ++ '\n' :: '\n' :: post))) = true := by
          intro hp
          apply hpfx
          simp [List.isPrefixOf] at hp ⊢
          exact ⟨hp.1, hp.2⟩
        rw [if_neg hpfx2]
        have h2' : (c2 :: pre'').getLast? ≠ some '\n' := by
          intro hl
          apply h2
          simpa using hl
        rw [ih hrec h2']

/-- One unrolling of the drain loop at a blank-line boundary. -/
theorem splitOnFuel_boundary (fuel : Nat) (pre post : List Char)
    (h1 : splitFirst ['\n', '\n'] pre = none) (h2 : pre.getLast? ≠ some '\n') :
    splitOnFuel ['\n', '\n'] (fuel + 1) (pre ++ '\n' :: '\n' :: post) =
      pre :: splitOnFuel ['\n', '\n'] fuel post := by
  rw [splitOnFuel, splitFirst_boundary pre post h1 h2]

/-- A buffer without a blank-line boundary is left whole. -/
theorem splitOnFuel_no_boundary (fuel : Nat) (s : List Char)
    (h : splitFirst ['\n', '\n'] s = none) :
    splitOnFuel ['\n', '\n'] fuel s = [s] := by
  cases fuel with
  | zero => rfl
  | succ f => rw [splitOnFuel, h]

/-- Event splitting of a buffer holding two complete events followed
by a terminated sentinel event. -/
theorem splitOnL_three (e1 e2 : List Char)
    (hb1 : splitFirst ['\n', '\n'] e1 = none) (hb2 : splitFirst ['\n', '\n'] e2 = none)
    (hl1 : e1.getLast? ≠ some '\n') (hl2 : e2.getLast? ≠ some '\n') :
    splitOnL ['\n', '\n'] (e1 ++ '\n' :: '\n' :: (e2 ++ '\n' :: '\n' :: "data: [DONE]\n\n".data)) =
      [e1, e2, "data: [DONE]".data, []] := by
  unfold splitOnL
  have hk : (e1 ++ '\n' :: '\n' :: (e2 ++ '\n' :: '\n' :: "data: [DONE]\n\n".data)).length =
      (e1.length + e2.length + 15) + 3 := by
    simp [List.length_append]
    omega
  rw [hk]
  rw [show (e1.length + e2.length + 15) + 3 = ((e1.length + e2.length + 15) + 2) + 1 from rfl]
  rw [splitOnFuel_boundary _ e1 _ hb1 hl1]
  rw [show (e1.length + e2.length + 15) + 2 = ((e1.length + e2.length + 15) + 1) + 1 from rfl]
  rw [splitOnFuel_boundary _ e2 _ hb2 hl2]
  rw [show ("data: [DONE]\n\n".data : List Char) = "data: [DONE]".data ++ '\n' :: '\n' :: [] from rfl]
  rw [splitOnFuel_boundary _ ("data: [DONE]".data) [] (by decide) (by decide)]
  rw [splitOnFuel_no_boundary _ [] rfl]

/-- Event splitting of a buffer holding one complete event followed
by one unterminated trailing event. -/
theorem splitOnL_two (e1 e2 : List Char)
    (hb1 : splitFirst ['\n', '\n'] e1 = none) (hb2 : splitFirst ['\n', '\n'] e2 = none)
    (hl1 : e1.getLast? ≠ some '\n') :
    splitOnL ['\n', '\n'] (e1 ++ '\n' :: '\n' :: e2) = [e1, e2] := by
  unfold splitOnL
  have hk : (e1 ++ '\n' :: '\n' :: e2).length = (e1.length + e2.length + 1) + 1 := by
    simp [List.length_append]
    omega
  rw [hk]
  rw [splitOnFuel_boundary _ e1 _ hb1 hl1]
  rw [splitOnFuel_no_boundary _ e2 hb2]

/-- Every character encodes to at least one UTF-8 byte. -/
theorem utf8EncodeCharL_ne_nil (c : Char) : utf8EncodeCharL c ≠ [] := by
  unfold utf8EncodeCharL
  simp only []
  split
  · simp
  · split
    · simp
    · split
      · simp
      · simp

/-- A non-empty string has a non-empty UTF-8 byte buffer. -/
theorem utf8Bytes_ne_nil (s : String) (h : s ≠ "") : utf8Bytes s ≠ [] := by
  cases s with
  | mk data =>
    cases data with
    | nil => exact absurd rfl h
    | cons c cs =>
      unfold utf8Bytes
      simp [utf8EncodeCharL_ne_nil]

/-- getOrCreateConversation never touches the messages table. -/
theorem getOrCreate_ok_messages (store : Store) (sid : String) (now : Nat) (cid : Nat) (s1 : Store)
    (h : getOrCreateConversation store sid now = .ok (cid, s1)) : s1.messages = store.messages := by
  unfold getOrCreateConversation at h
  rcases hf : store.conversations.filter (fun c => c.sessionId = sid) with _ | ⟨c, _ | ⟨c2, rest⟩⟩ <;>
    rw [hf] at h <;> simp only [Except.ok.injEq, Prod.mk.injEq] at h
  · obtain ⟨_, hs⟩ := h
    rw [← hs]
  · obtain ⟨_, hs⟩ := h
    rw [← hs]
  · cases h

/-! ## Claim C1 -/

/-- Claim C1: for every streaming chat request that passes rate
limiting, authentication and validation, and for which conversation
preparation succeeds so that the NDJSON stream begins, the stream is
exactly one start event carrying the conversation identifier, then
the token events in order, then exactly one terminal event (done on
success, error on a failure after streaming began), after which the
response is closed. -/
theorem stream_event_discipline (maxHistoryMessages : Nat) (store : Store) (now persistAt : Nat)
    (gen : GenOutcome) (req : ChatRequest) (prep : PrepResult)
    (hprep : prepareConversationData maxHistoryMessages store req.sessionId req.message now = .ok prep) :
    ∃ t, ((handleStreamingChat maxHistoryMessages true true (some req) store now persistAt gen ResState.init).1).stream =
        ChatStreamPayload.start (toString prep.conversationId) ::
          gen.emitted.map ChatStreamPayload.token ++ [t] ∧
      isTerminalEv t = true ∧
      (∀ m, gen.result = some m → t = .done m (toString prep.conversationId)) ∧
      (gen.result = none → t = .error "Internal server error") ∧
      ((handleStreamingChat maxHistoryMessages true true (some req) store now persistAt gen ResState.init).1).stream.countP isStartEv = 1 ∧
      ((handleStreamingChat maxHistoryMessages true true (some req) store now persistAt gen ResState.init).1).stream.countP isTerminalEv = 1 ∧
      ((handleStreamingChat maxHistoryMessages true true (some req) store now persistAt gen ResState.init).1).writableEnded = true := by
  cases hres : gen.result with
  | none =>
    rw [handleStreamingChat_fail maxHistoryMessages store now persistAt gen req prep hprep hres]
    refine ⟨.error "Internal server error", rfl, rfl, ?_, fun _ => rfl, ?_, ?_, rfl⟩
    · intro m hm
      exact absurd hm (by simp)
    · simp [List.countP_cons, List.countP_append, List.countP_map, isStartEv, isTerminalEv,
        Function.comp]
    · simp [List.countP_cons, List.countP_append, List.countP_map, isStartEv, isTerminalEv,
        Function.comp]
  | some m =>
    rw [handleStreamingChat_done maxHistoryMessages store now persistAt gen req prep m hprep hres]
    refine ⟨.done m (toString prep.conversationId), rfl, rfl, ?_, ?_, ?_, ?_, rfl⟩
    · intro m2 hm2
      injection hm2 with hm2m
      rw [hm2m]
    · intro hn
      exact absurd hn (by simp)
    · simp [List.countP_cons, List.countP_append, List.countP_map, isStartEv, isTerminalEv,
        Function.comp]
    · simp [List.countP_cons, List.countP_append, List.countP_map, isStartEv, isTerminalEv,
        Function.comp]

/-- Witness for C1 at a concrete request. -/
theorem stream_event_discipline_witness :
    ((handleStreamingChat 30 true true (some ⟨"s1", "hello"⟩) ⟨[], [], 0⟩ 5 6 ⟨["a"], some "m"⟩ ResState.init).1).stream.countP isStartEv = 1 ∧
    ((handleStreamingChat 30 true true (some ⟨"s1", "hello"⟩) ⟨[], [], 0⟩ 5 6 ⟨["a"], some "m"⟩ ResState.init).1).stream.countP isTerminalEv = 1 ∧
    ((handleStreamingChat 30 true true (some ⟨"s1", "hello"⟩) ⟨[], [], 0⟩ 5 6 ⟨["a"], some "m"⟩ ResState.init).1).writableEnded = true := by
  obtain ⟨t, h1, h2, h3, h4, h5, h6, h7⟩ := stream_event_discipline 30 ⟨[], [], 0⟩ 5 6
    ⟨["a"], some "m"⟩ ⟨"s1", "hello"⟩
    ⟨0, [⟨.user, "hello"⟩], ⟨[⟨0, "s1", 5, 5, "hello"⟩], [⟨1, 0, .user, "hello", 5⟩], 2⟩⟩ rfl
  exact ⟨h5, h6, h7⟩

/-! ## Claim C7 -/

/-- Claim C7: when the generation step throws after the user turn was
appended (upstream non-2xx, unreadable body, or any internal error),
the user message appended by preparation stays persisted, nothing is
rolled back, and no assistant message is appended for the request. -/
theorem user_turn_kept_on_failure (maxHistoryMessages : Nat) (store : Store) (now persistAt : Nat)
    (gen : GenOutcome) (req : ChatRequest) (prep : PrepResult)
    (hprep : prepareConversationData maxHistoryMessages store req.sessionId req.message now = .ok prep)
    (hfail : gen.result = none) :
    (handleStreamingChat maxHistoryMessages true true (some req) store now persistAt gen ResState.init).2 = prep.store ∧
    ∃ mid, prep.store.messages =
      store.messages ++ [⟨mid, prep.conversationId, .user, req.message, now⟩] := by
  constructor
  · rw [handleStreamingChat_fail maxHistoryMessages store now persistAt gen req prep hprep hfail]
  · unfold prepareConversationData at hprep
    cases hg : getOrCreateConversation store req.sessionId now with
    | error e =>
      rw [hg] at hprep
      cases hprep
    | ok p =>
      obtain ⟨cid, s1⟩ := p
      rw [hg] at hprep
      simp only [addMessage, Except.ok.injEq] at hprep
      have hmsg := getOrCreate_ok_messages store req.sessionId now cid s1 hg
      refine ⟨s1.nextId, ?_⟩
      rw [← hprep]
      simp [hmsg]

/-- Witness for C7 at a concrete request. -/
theorem user_turn_kept_on_failure_witness :
    (handleStreamingChat 30 true true (some ⟨"s1", "hello"⟩) ⟨[], [], 0⟩ 5 6 ⟨["a"], none⟩ ResState.init).2 =
      ⟨[⟨0, "s1", 5, 5, "hello"⟩], [⟨1, 0, .user, "hello", 5⟩], 2⟩ := by
  have h := user_turn_kept_on_failure 30 ⟨[], [], 0⟩ 5 6 ⟨["a"], none⟩ ⟨"s1", "hello"⟩
    ⟨0, [⟨.user, "hello"⟩], ⟨[⟨0, "s1", 5, 5, "hello"⟩], [⟨1, 0, .user, "hello", 5⟩], 2⟩⟩ rfl rfl
  exact h.1

/-! ## Claim C2 -/

/-- Claim C2: an upstream byte stream holding two complete events
(blank-line boundaries, data-marked payload lines) each carrying one
token fragment, followed by a terminated DONE sentinel line, yields
exactly the two fragments in order and no others; and when the final
event is left unterminated at end-of-stream, its fragment is still
extracted. -/
theorem upstream_events_extracted (parseChunk : List Char → Option (List Char))
    (e1 e2 t1 t2 : List Char)
    (he1 : processEvent parseChunk e1 = [t1]) (he2 : processEvent parseChunk e2 = [t2])
    (hb1 : splitFirst ['\n', '\n'] e1 = none) (hb2 : splitFirst ['\n', '\n'] e2 = none)
    (hl1 : e1.getLast? ≠ some '\n') (hl2 : e2.getLast? ≠ some '\n')
    (hnb2 : trimL e2 ≠ []) :
    extractTokens parseChunk
        [e1 ++ '\n' :: '\n' :: (e2 ++ '\n' :: '\n' :: "data: [DONE]\n\n".data)] = [t1, t2] ∧
    extractTokens parseChunk [e1 ++ '\n' :: '\n' :: e2] = [t1, t2] := by
  have hsent : processEvent parseChunk ("data: [DONE]".data) = [] := rfl
  constructor
  · simp only [extractTokens, List.foldl_cons, List.foldl_nil, feedChunk, drainBuffer,
      List.nil_append]
    rw [splitOnL_three e1 e2 hb1 hb2 hl1 hl2]
    simp [he1, he2, hsent, trimL]
  · simp only [extractTokens, List.foldl_cons, List.foldl_nil, feedChunk, drainBuffer,
      List.nil_append]
    rw [splitOnL_two e1 e2 hb1 hb2 hl1]
    simp [he1, he2, hnb2]

/-- Witness for C2 on a concrete framing with a concrete decoder. -/
theorem upstream_events_extracted_witness :
    extractTokens
        (fun d => if d = "one".data then some "A".data
          else if d = "two".data then some "B".data else none)
        ["data: one".data ++ '\n' :: '\n' ::
          ("data: two".data ++ '\n' :: '\n' :: "data: [DONE]\n\n".data)] = ["A".data, "B".data] ∧
    extractTokens
        (fun d => if d = "one".data then some "A".data
          else if d = "two".data then some "B".data else none)
        ["data: one".data ++ '\n' :: '\n' :: "data: two".data] = ["A".data, "B".data] :=
  upstream_events_extracted
    (fun d => if d = "one".data then some "A".data
      else if d = "two".data then some "B".data else none)
    ("data: one".data) ("data: two".data) ("A".data) ("B".data)
    (by decide) (by decide) (by decide) (by decide) (by decide) (by decide) (by decide)

/-! ## Claim C3 -/

/-- Claim C3: when the accumulated assistant text is empty or
whitespace-only, generateAssistantMessage returns the fixed fallback
string, never the empty string, and in a streaming run both the done
event and the persisted assistant turn carry that fallback string. -/
theorem empty_accumulation_fallback (parseChunk : List Char → Option (List Char))
    (chunks : List (List Char))
    (h : trimL (extractTokens parseChunk chunks).flatten = []) :
    generateAssistantMessage parseChunk chunks = fallbackMessage.data ∧
    generateAssistantMessage parseChunk chunks ≠ [] ∧
    (∀ (maxHistoryMessages : Nat) (store : Store) (now persistAt : Nat)
        (req : ChatRequest) (prep : PrepResult),
      prepareConversationData maxHistoryMessages store req.sessionId req.message now = .ok prep →
      ((handleStreamingChat maxHistoryMessages true true (some req) store now persistAt
          ⟨(extractTokens parseChunk chunks).map String.mk,
            some (String.mk (generateAssistantMessage parseChunk chunks))⟩
          ResState.init).1).stream.getLast? =
        some (.done fallbackMessage (toString prep.conversationId)) ∧
      ((handleStreamingChat maxHistoryMessages true true (some req) store now persistAt
          ⟨(extractTokens parseChunk chunks).map String.mk,
            some (String.mk (generateAssistantMessage parseChunk chunks))⟩
          ResState.init).2).messages.getLast? =
        some ⟨prep.store.nextId, prep.conversationId, .assistant, fallbackMessage, persistAt⟩) := by
  have hgen : generateAssistantMessage parseChunk chunks = fallbackMessage.data := by
    simp [generateAssistantMessage, h]
  have hne : generateAssistantMessage parseChunk chunks ≠ [] := by
    rw [hgen]
    decide
  refine ⟨hgen, hne, ?_⟩
  intro maxHistoryMessages store now persistAt req prep hprep
  have hm : String.mk (generateAssistantMessage parseChunk chunks) = fallbackMessage := by
    rw [hgen]
  rw [handleStreamingChat_done maxHistoryMessages store now persistAt _ req prep
    (String.mk (generateAssistantMessage parseChunk chunks)) hprep rfl]
  have hlast : ∀ (a x : ChatStreamPayload) (l : List ChatStreamPayload),
      (a :: (l ++ [x])).getLast? = some x := by
    intro a x l
    rw [← List.cons_append, List.getLast?_concat]
  constructor
  · rw [hm]
    simp [hlast]
  · rw [hm]
    simp only [persistAssistantMessage, addMessage]
    simp [List.getLast?_concat]

/-- Witness for C3 on an empty upstream stream. -/
theorem empty_accumulation_fallback_witness :
    generateAssistantMessage (fun _ => none) [] = fallbackMessage.data :=
  (empty_accumulation_fallback (fun _ => none) [] (by decide)).1

/-! ## Claim C4 -/

/-- The chunk decoder of the C4 counterexample: a single chunk whose
incremental content field is a fragment with surrounding whitespace. -/
def cexParseChunk : List Char → Option (List Char) :=
  fun d => if d = "x".data then some " hi ".data else none

/-- Counterexample to C4 as stated: one extracted fragment with
surrounding whitespace makes the accumulator non-whitespace-only, yet
the value generateAssistantMessage returns is the trimmed
accumulator, not the exact concatenation of the fragments. -/
theorem final_message_not_exact_concatenation :
    trimL (extractTokens cexParseChunk ["data: x\n\n".data]).flatten ≠ [] ∧
    generateAssistantMessage cexParseChunk ["data: x\n\n".data] ≠
      (extractTokens cexParseChunk ["data: x\n\n".data]).flatten := by
  decide

/-- Claim C4 as amended: every extracted fragment is handed to the
onToken sink in extraction order (the extractTokens sequence), and
whenever the accumulated text is not empty or whitespace-only, the
final assistant message equals the TRIMMED concatenation of all
extracted fragments. -/
theorem final_message_trimmed_concatenation (parseChunk : List Char → Option (List Char))
    (chunks : List (List Char))
    (h : trimL (extractTokens parseChunk chunks).flatten ≠ []) :
    generateAssistantMessage parseChunk chunks =
      trimL (extractTokens parseChunk chunks).flatten := by
  simp [generateAssistantMessage, h]

/-- Witness for the amended C4 on a concrete stream. -/
theorem final_message_trimmed_concatenation_witness :
    generateAssistantMessage cexParseChunk ["data: x\n\n".data] =
      trimL (extractTokens cexParseChunk ["data: x\n\n".data]).flatten :=
  final_message_trimmed_concatenation cexParseChunk ["data: x\n\n".data] (by decide)

/-! ## Claim C5 -/

/-- Claim C5: with a window of 1000 ms and a maximum of 3, five admit
calls for one key inside one window answer true, true, true, false,
false, the per-key counter reaching 5 because it increments on
rejections too; a sixth call after the window elapsed answers true
and starts a fresh window. -/
theorem rate_limit_window_scenario :
    (admitSeq 1000 3 "client" [] [0, 1, 2, 3, 4]).1 = [true, true, true, false, false] ∧
    bucketsGet (admitSeq 1000 3 "client" [] [0, 1, 2, 3, 4]).2 "client" = some ⟨5, 1000⟩ ∧
    (isWithinRateLimit 1000 3 (admitSeq 1000 3 "client" [] [0, 1, 2, 3, 4]).2 "client" 1001).1 = true ∧
    bucketsGet (isWithinRateLimit 1000 3 (admitSeq 1000 3 "client" [] [0, 1, 2, 3, 4]).2 "client" 1001).2 "client" =
      some ⟨1, 2001⟩ := by
  decide

/-! ## Claim C6 -/

/-- Claim C6: secureEquals answers true exactly on byte-for-byte
equal UTF-8 buffers; an empty presented string against a non-empty
expected one answers false without reaching the comparison primitive;
and whenever the byte lengths differ the primitive is never invoked. -/
theorem secure_equals_byte_equality (expected presented : String) :
    (secureEquals expected presented = true ↔ utf8Bytes expected = utf8Bytes presented) ∧
    (presented = "" → expected ≠ "" → secureEqualsTraced expected presented = (false, false)) ∧
    ((utf8Bytes expected).length ≠ (utf8Bytes presented).length →
      secureEqualsTraced expected presented = (false, false)) ∧
    (secureEqualsTraced expected presented).1 = secureEquals expected presented := by
  have hlen : ∀ (_ : (utf8Bytes expected).length ≠ (utf8Bytes presented).length),
      secureEqualsTraced expected presented = (false, false) := by
    intro h
    unfold secureEqualsTraced
    simp [h]
  refine ⟨?_, ?_, hlen, ?_⟩
  · unfold secureEquals timingSafeEqual
    by_cases h : (utf8Bytes expected).length = (utf8Bytes presented).length
    · simp [h]
    · simp only [h, ne_eq, not_false_iff, if_true]
      constructor
      · intro hfalse
        exact absurd hfalse (by simp)
      · intro heq
        exact absurd (congrArg List.length heq) h
  · intro hp he
    apply hlen
    rw [hp]
    rw [show utf8Bytes "" = [] from rfl]
    simp [utf8Bytes_ne_nil expected he]
  · unfold secureEquals secureEqualsTraced
    by_cases h : (utf8Bytes expected).length = (utf8Bytes presented).length
    · simp [h]
    · simp [h]

/-- Witness for C6 at concrete credentials. -/
theorem secure_equals_byte_equality_witness :
    secureEquals "secret" "secret" = true ∧
    secureEqualsTraced "secret" "secre" = (false, false) ∧
    secureEqualsTraced "secret" "" = (false, false) :=
  ⟨(secure_equals_byte_equality "secret" "secret").1.mpr (by decide),
    (secure_equals_byte_equality "secret" "secre").2.2.1 (by decide),
    (secure_equals_byte_equality "secret" "").2.1 rfl (by decide)⟩

/-! ## Claim C8 -/

/-- Claim C8: when the admin secret is unset (or empty, which JS
treats as falsy), every admin-gated request is answered with the
distinct 503 capability-not-configured terminal, no presented
credential is ever compared, and the 401 unauthorized terminal is
never produced. -/
theorem admin_unconfigured_503 (adminApiKeyEnv headerApiKey : Option String)
    (h : jsFalsyOptString adminApiKeyEnv = true) :
    requireAdminApiKey adminApiKeyEnv headerApiKey = (.notConfigured, false) ∧
    adminStatusCode (requireAdminApiKey adminApiKeyEnv headerApiKey).1 = some 503 ∧
    (requireAdminApiKey adminApiKeyEnv headerApiKey).1 ≠ .unauthorized := by
  simp [requireAdminApiKey, h, adminStatusCode]

/-- Witness for C8 with no configured admin secret. -/
theorem admin_unconfigured_503_witness :
    requireAdminApiKey none (some "anything") = (.notConfigured, false) :=
  (admin_unconfigured_503 none (some "anything") rfl).1

/-! ## Claim C9 -/

/-- Claim C9: a second getOrCreateConversation call for the same
session identifier, at any later instant, returns the same
conversation key and leaves the store untouched, inserting no new
conversation record. -/
theorem get_or_create_idempotent (store : Store) (sessionId : String) (now1 now2 : Nat)
    (k1 : Nat) (s1 : Store)
    (h : getOrCreateConversation store sessionId now1 = .ok (k1, s1)) :
    getOrCreateConversation s1 sessionId now2 = .ok (k1, s1) := by
  unfold getOrCreateConversation at h ⊢
  rcases hf : store.conversations.filter (fun c => c.sessionId = sessionId) with _ | ⟨c, _ | ⟨c2, rest⟩⟩
  · rw [hf] at h
    simp only [Except.ok.injEq, Prod.mk.injEq] at h
    obtain ⟨hk, hs⟩ := h
    subst hs
    rw [show ({ store with
        conversations := store.conversations ++ [⟨store.nextId, sessionId, now1, now1, ""⟩],
        nextId := store.nextId + 1 } : Store).conversations.filter (fun c => c.sessionId = sessionId)
      = [⟨store.nextId, sessionId, now1, now1, ""⟩] from by
        simp [List.filter_append, hf]]
    simp [← hk]
  · rw [hf] at h
    simp only [Except.ok.injEq, Prod.mk.injEq] at h
    obtain ⟨hk, hs⟩ := h
    subst hs
    rw [hf]
    simp [hk]
  · rw [hf] at h
    simp at h

/-- Witness for C9 after a fresh insertion. -/
theorem get_or_create_idempotent_witness :
    getOrCreateConversation ⟨[⟨0, "s1", 5, 5, ""⟩], [], 1⟩ "s1" 9 =
      .ok (0, ⟨[⟨0, "s1", 5, 5, ""⟩], [], 1⟩) :=
  get_or_create_idempotent ⟨[], [], 0⟩ "s1" 5 9 0 ⟨[⟨0, "s1", 5, 5, ""⟩], [], 1⟩ rfl

/-! ## Claim C10 -/

/-- Claim C10: every addMessage call appends exactly one message
document, leaving every previously stored message untouched, and on
each stored conversation record it changes nothing unless the record
is the owning one, in which case only the update instant and the
500-character preview change while identifier, session identifier
and creation instant are preserved. -/
theorem add_message_frame (store : Store) (conversationId : Nat) (role : Role)
    (content : String) (createdAt : Nat) :
    (addMessage store conversationId role content createdAt).1 = store.nextId ∧
    (addMessage store conversationId role content createdAt).2.messages =
      store.messages ++ [⟨store.nextId, conversationId, role, content, createdAt⟩] ∧
    List.Forall₂ (fun c c' =>
        (c.id = conversationId →
          c'.id = c.id ∧ c'.sessionId = c.sessionId ∧ c'.createdAt = c.createdAt ∧
          c'.updatedAt = createdAt ∧ c'.lastMessage = jsSlice content 500) ∧
        (c.id ≠ conversationId → c' = c))
      store.conversations (addMessage store conversationId role content createdAt).2.conversations := by
  refine ⟨rfl, rfl, ?_⟩
  simp only [addMessage]
  rw [List.forall₂_map_right_iff, List.forall₂_same]
  intro c _
  constructor
  · intro hc
    simp [hc, patchConversation]
  · intro hc
    simp [hc]

end OpenChatWidget
